import Mathlib

/-!
# State projection of `multipass/data_source_instance.go`

A shallow embedding of the data source of the multipass Terraform provider:
the decoded inventory (`Info`, `Instance`, `Disk`, `Memory`, `Mount`), the two
flattening functions `flattenDisks` and `flattenMounts`, the schema built by
`dataSourceInstance`, and `dataSourceInstanceRead` over the outcomes of its
collaborators (process launch, JSON decoding, process exit, state store).

Modelling conventions.

* A Go map `map[string]*T` is `Option (List (String × Option T))`: `none` is the
  nil map, `some es` a non-nil map whose entries are listed in the order in which
  one `range` loop visits them.  Keys of a Go map are distinct, which theorems
  assume as `Nodup` of the key list; statements hold for every such list, that
  is, for every iteration order.  A `*T` value is `Option T`, `none` being nil.
* A Go `interface{}` is a `Value`; the nil interface is `Value.nil`.
* A run-time panic is an `Except.error` carrying the `Panic`.
* A Go `error` is `Option String` (`none` is the nil error, `some msg` an error
  whose `Error()` text is `msg`).
* Logging (`json.MarshalIndent`, `log.Printf`) has no effect on the result and
  is left out.
-/

set_option linter.dupNamespace false

namespace Multipass

/-! ## Run-time values -/

/-- Go run-time panics that the embedded code can raise. -/
inductive Panic where
  | makesliceLenOutOfRange
  | nilPointerDereference
deriving DecidableEq, Repr

/-- Dynamic values stored in `interface{}` by the projection. -/
inductive Value where
  | nil
  | str (s : String)
  | int (n : Int)
  | strs (l : List String)
  | map (m : List (String × Value))
  | slice (l : List Value)

/-- A Go map with string keys and pointer values; `none` is the nil map. -/
abbrev GoMap (T : Type) := Option (List (String × Option T))

/-- Go `len(m)` of a map: zero for the nil map. -/
def GoMap.len {T : Type} : GoMap T → Nat
  | none => 0
  | some es => es.length

/-- The keys of a Go map, in iteration order; none for the nil map. -/
def GoMap.keys {T : Type} : GoMap T → List String
  | none => []
  | some es => es.map Prod.fst

/-- Go `make([]interface{}, n)`: `n` nil interfaces, a panic when `n` is negative. -/
def makeSlice (n : Int) : Except Panic (List Value) :=
  if n < 0 then .error .makesliceLenOutOfRange else .ok (List.replicate n.toNat Value.nil)

/-- Go `m[k] = v` on a `map[string]interface{}`: replace the entry of `k`, or add one. -/
def mapAssign : List (String × Value) → String → Value → List (String × Value)
  | [], k, v => [(k, v)]
  | e :: es, k, v => if e.1 = k then (k, v) :: es else e :: mapAssign es k v

/-- Dereference of a Go pointer: a nil pointer panics. -/
def deref {T : Type} : Option T → Except Panic T
  | none => .error .nilPointerDereference
  | some t => .ok t

/-- The field names (keys) carried by a value that is a `map[string]interface{}`. -/
def Value.fieldNames : Value → List String
  | .map m => m.map Prod.fst
  | _ => []

/-- The string stored under `field` in a record value, if the value is a record
    that has such a field holding a string. -/
def Value.stringField (field : String) : Value → Option String
  | .map m =>
    match m.lookup field with
    | some (.str s) => some s
    | _ => none
  | _ => none

/-! ## The decoded inventory (lines 13-49) -/

/-- Go `Disk`. -/
structure Disk where
  Total : String
  Used : String
deriving DecidableEq, Repr

/-- Go `Memory`. -/
structure Memory where
  Total : Int
  Used : Int
deriving DecidableEq, Repr

/-- Go `Mount`. -/
structure Mount where
  GIDMappings : List String
  SourcePath : String
  UIDMappings : List String
deriving DecidableEq, Repr

/-- Go `Instance`. -/
structure Instance where
  Disks : GoMap Disk
  ImageHash : String
  ImageRelease : String
  Ipv4 : List String
  Memory : Option Memory
  Mounts : GoMap Mount
  Release : String
  State : String
deriving DecidableEq, Repr

/-- Go `Info`. -/
structure Info where
  Errors : List String
  Info : GoMap Instance
deriving DecidableEq, Repr

/-! ## Flattening (lines 209-250) -/

/-- Body of the `range` loop of `flattenDisks` (lines 214-220). -/
def flattenDisksStep (tfDisks : List Value) (e : String × Option Disk) :
    Except Panic (List Value) := do
  let tfDisk : List (String × Value) := []
  let tfDisk := mapAssign tfDisk "device" (.str e.1)
  let v ← deref e.2
  let tfDisk := mapAssign tfDisk "total" (.str v.Total)
  pure (tfDisks ++ [Value.map tfDisk])

/-- Go `flattenDisks` (lines 209-227). -/
def flattenDisks (disks : GoMap Disk) : Except Panic (List Value) :=
  match disks with
  | some es => do
    let tfDisks ← makeSlice ((es.length : Int) - 1)
    es.foldlM flattenDisksStep tfDisks
  | none => makeSlice 0

/-- Body of the `range` loop of `flattenMounts` (lines 234-243). -/
def flattenMountsStep (tfMounts : List Value) (e : String × Option Mount) :
    Except Panic (List Value) := do
  let tfMount : List (String × Value) := []
  let tfMount := mapAssign tfMount "mount_path" (.str e.1)
  let v ← deref e.2
  let tfMount := mapAssign tfMount "gid_mappings" (.strs v.GIDMappings)
  let tfMount := mapAssign tfMount "uid_mappings" (.strs v.UIDMappings)
  let tfMount := mapAssign tfMount "source_path" (.str v.SourcePath)
  pure (tfMounts ++ [Value.map tfMount])

/-- Go `flattenMounts` (lines 229-250). -/
def flattenMounts (mounts : GoMap Mount) : Except Panic (List Value) :=
  match mounts with
  | some es => do
    let tfMounts ← makeSlice ((es.length : Int) - 1)
    es.foldlM flattenMountsStep tfMounts
  | none => makeSlice 0

/-! ## The projection loop of `dataSourceInstanceRead` (lines 179-193) -/

/-- Body of the `range` loop over `info.Info` (lines 181-192). -/
def projectStep (instances : List Value) (e : String × Option Instance) :
    Except Panic (List Value) := do
  let i : List (String × Value) := []
  let i := mapAssign i "id" (.str e.1)
  let v ← deref e.2
  let i := mapAssign i "disks" (.slice (← flattenDisks v.Disks))
  let i := mapAssign i "image_hash" (.str v.ImageHash)
  let i := mapAssign i "image_release" (.str v.ImageRelease)
  let i := mapAssign i "ipv4" (.strs v.Ipv4)
  let memory ← deref v.Memory
  let i := mapAssign i "memory_total" (.int memory.Total)
  let i := mapAssign i "mounts" (.slice (← flattenMounts v.Mounts))
  let i := mapAssign i "release" (.str v.Release)
  let i := mapAssign i "state" (.str v.State)
  pure (instances ++ [Value.map i])

/-- Lines 179-193 of `dataSourceInstanceRead`: the slice `instances` built from
    the decoded `info.Info`. -/
def projectInstances (info : GoMap Instance) : Except Panic (List Value) := do
  let instances ← makeSlice ((GoMap.len info : Int) - 1)
  match info with
  | some es => es.foldlM projectStep instances
  | none => pure instances

/-! ## The schema built by `dataSourceInstance` (lines 51-143) -/

/-- The value types of the plugin SDK that the schema uses. -/
inductive ValueType where
  | TypeString
  | TypeInt
  | TypeList
  | TypeSet
deriving DecidableEq, Repr

/-- A `schema.Schema` of the plugin SDK, as far as the source fills it in: the
    `Elem` of a collection is either a plain schema or a resource, that is, a
    named collection of schemas. -/
inductive Schema where
  | mk (type : ValueType) (required computed optional : Bool) (elem : Option Schema)
  | resource (type : ValueType) (required computed optional : Bool)
      (fields : List (String × Schema))

/-- A schema with no `Elem`. -/
def Schema.leaf (type : ValueType) (required computed optional : Bool) : Schema :=
  .mk type required computed optional none

/-- The fields declared by the resource that is the `Elem` of a schema. -/
def Schema.elemFields : Schema → List (String × Schema)
  | .mk _ _ _ _ _ => []
  | .resource _ _ _ _ fields => fields

/-- The field names declared by the resource that is the `Elem` of a schema. -/
def Schema.elemFieldNames (s : Schema) : List String :=
  s.elemFields.map Prod.fst

/-- The schema declared under `name` among `fields`. -/
def schemaOf (fields : List (String × Schema)) (name : String) : Option Schema :=
  fields.lookup name

/-- Go `dataSourceInstance` (lines 51-143): the `Schema` map of the returned
    resource; its `ReadContext` is `dataSourceInstanceRead`. -/
def dataSourceInstance : List (String × Schema) :=
  [("instances", .resource .TypeSet false true false
    [("id", .leaf .TypeString true false false),
     ("disks", .resource .TypeSet false true false
       [("device", .leaf .TypeString false true false),
        ("total", .leaf .TypeString false true false)]),
     ("image_hash", .leaf .TypeString false true false),
     ("image_release", .leaf .TypeString false true false),
     ("ipv4", .mk .TypeList false true false (some (.leaf .TypeString false false false))),
     ("memory_total", .leaf .TypeInt false false true),
     ("mounts", .resource .TypeSet false false true
       [("mount_path", .leaf .TypeString false true false),
        ("gid_mappings", .mk .TypeList false false false
          (some (.leaf .TypeString false true false))),
        ("uid_mappings", .mk .TypeList false false false
          (some (.leaf .TypeString false true false)))]),
     ("release", .leaf .TypeString false true false),
     ("state", .leaf .TypeString false true false)])]

/-- The fields the schema declares for one element of `instances`. -/
def instanceFields : List (String × Schema) :=
  match schemaOf dataSourceInstance "instances" with
  | some s => s.elemFields
  | none => []

/-- The field names the schema declares for one element of the collection
    `name` nested in an element of `instances`. -/
def nestedFieldNames (name : String) : List String :=
  match schemaOf instanceFields name with
  | some s => s.elemFieldNames
  | none => []

/-! ## Diagnostics and the state store -/

/-- Severity of a diagnostic of the plugin SDK. -/
inductive Severity where
  | Error
  | Warning
deriving DecidableEq, Repr

/-- A `diag.Diagnostic`, reduced to severity and summary. -/
structure Diagnostic where
  Severity : Severity
  Summary : String
deriving DecidableEq, Repr

/-- Go `diag.Diagnostics`. -/
abbrev Diagnostics := List Diagnostic

/-- Go `diag.FromErr(err)` for a non-nil `err` with text `msg`. -/
def diag.FromErr (msg : String) : Diagnostics :=
  [{ Severity := .Error, Summary := msg }]

/-- Go `diag.Errorf(format, err)` where `format` is `context` followed by `%v`. -/
def diag.Errorf (context msg : String) : Diagnostics :=
  [{ Severity := .Error, Summary := context ++ msg }]

/-- Go `Diagnostics.HasError`. -/
def Diagnostics.HasError (ds : Diagnostics) : Bool :=
  ds.any (fun d => d.Severity == .Error)

/-- A call made on the `*schema.ResourceData` handed to the read function. -/
inductive StoreCall where
  | Set (key : String) (value : Value)
  | SetId (id : String)

/-- Outcomes of the collaborators of one read: the errors of `cmd.StdoutPipe`,
    `cmd.Start`, the decoding of the process output, `cmd.Wait`, and the error
    with which the state store answers `d.Set(key, value)`. -/
structure Collaborators where
  stdoutPipe : Option String
  start : Option String
  decode : Except String Info
  wait : Option String
  set : String → Value → Option String

/-- What one call of the read function does: how it ends (a panic, or the
    returned diagnostics) and the calls it made on the state store, in order. -/
structure ReadResult where
  outcome : Except Panic Diagnostics
  calls : List StoreCall

/-- Go `dataSourceInstanceRead` (lines 150-207). -/
def dataSourceInstanceRead (c : Collaborators) : ReadResult :=
  let diags : Diagnostics := []
  match c.stdoutPipe with
  | some err => ⟨.ok (diag.FromErr err), []⟩
  | none =>
  match c.start with
  | some err => ⟨.ok (diag.FromErr err), []⟩
  | none =>
  match c.decode with
  | .error err => ⟨.ok (diag.Errorf "multipass info json decode - " err), []⟩
  | .ok info =>
  match c.wait with
  | some err => ⟨.ok (diag.FromErr err), []⟩
  | none =>
  match projectInstances info.Info with
  | .error p => ⟨.error p, []⟩
  | .ok instances =>
  match c.set "instances" (.slice instances) with
  | some err =>
    ⟨.ok (diag.Errorf "Setting instance value - " err), [.Set "instances" (.slice instances)]⟩
  | none => ⟨.ok diags, [.Set "instances" (.slice instances), .SetId "0"]⟩

/-! ## Reference values used in the statements -/

/-- A non-nil Go map all of whose values are present (non-nil pointers). -/
def presentMap {T : Type} (es : List (String × T)) : GoMap T :=
  some (es.map fun e => (e.1, some e.2))

/-- The record expected for one disk entry: `device` is the key, `total` the
    `Total` of the disk. -/
def diskRecord (e : String × Disk) : Value :=
  .map [("device", .str e.1), ("total", .str e.2.Total)]

/-- The record expected for one mount entry: `mount_path` is the key, the other
    fields are those of the mount. -/
def mountRecord (e : String × Mount) : Value :=
  .map [("mount_path", .str e.1), ("gid_mappings", .strs e.2.GIDMappings),
    ("uid_mappings", .strs e.2.UIDMappings), ("source_path", .str e.2.SourcePath)]

/-- An instance with no disks map, no mounts map and the given memory. -/
def bareInstance (memory : Option Memory) : Instance :=
  { Disks := none, ImageHash := "h", ImageRelease := "20.04 LTS", Ipv4 := ["10.0.0.2"],
    Memory := memory, Mounts := none, Release := "Ubuntu 20.04", State := "Running" }

/-- Collaborators of a read in which the process starts, its output decodes to
    `info`, the process exits with `wait`, and the store accepts every value. -/
def decodedRun (info : Info) (wait : Option String) : Collaborators :=
  { stdoutPipe := none, start := none, decode := .ok info, wait := wait,
    set := fun _ _ => none }

/-! ## Auxiliary lemmas -/

theorem makeSlice_pred (n : Nat) (h : 0 < n) :
    makeSlice ((n : Int) - 1) = .ok (List.replicate (n - 1) Value.nil) := by
  have h1 : ¬ ((n : Int) - 1 < 0) := by omega
  have h2 : ((n : Int) - 1).toNat = n - 1 := by omega
  simp [makeSlice, h1, h2]

theorem makeSlice_ok (n : Int) (out : List Value) (h : makeSlice n = .ok out) :
    out = List.replicate n.toNat Value.nil := by
  unfold makeSlice at h
  split at h
  · cases h
  · cases h; rfl

theorem lookup_mapAssign_ne (m : List (String × Value)) (k f : String) (v : Value)
    (h : k ≠ f) : (mapAssign m k v).lookup f = m.lookup f := by
  have hfk : (f == k) = false := by simpa using fun h' => h h'.symm
  induction m with
  | nil => simp [mapAssign, List.lookup, hfk]
  | cons e es ih =>
    obtain ⟨a, b⟩ := e
    unfold mapAssign
    split
    · next hak =>
      simp only at hak
      subst hak
      simp [List.lookup, hfk]
    · simp only [List.lookup, ih]

/-- A loop whose body appends one record per entry returns the accumulator
    followed by the records of the entries, in iteration order. -/
theorem foldlM_ok_append {α β : Type} (step : List Value → α → Except Panic (List Value))
    (f : β → α) (record : β → Value)
    (hstep : ∀ acc b, step acc (f b) = .ok (acc ++ [record b]))
    (es : List β) (acc : List Value) :
    (es.map f).foldlM step acc = .ok (acc ++ es.map record) := by
  induction es generalizing acc with
  | nil => simp [pure, Except.pure]
  | cons b bs ih =>
    simp only [List.map_cons, List.foldlM_cons, hstep, bind, Except.bind]
    rw [ih]
    simp

/-- A loop whose body, when it returns, appends one record carrying the key of
    the entry under `field`: when the loop returns, it has appended one such
    record per entry. -/
theorem foldlM_ok_keys {α : Type} (step : List Value → α → Except Panic (List Value))
    (key : α → String) (field : String)
    (hstep : ∀ acc a out, step acc a = .ok out →
      ∃ r, out = acc ++ [r] ∧ r.stringField field = some (key a))
    (es : List α) (acc out : List Value) (h : es.foldlM step acc = .ok out) :
    ∃ recs, out = acc ++ recs ∧
      recs.map (Value.stringField field) = es.map (fun a => some (key a)) := by
  induction es generalizing acc with
  | nil =>
    refine ⟨[], ?_, rfl⟩
    simp only [List.foldlM_nil, pure, Except.pure, Except.ok.injEq] at h
    simp [h]
  | cons a as ih =>
    simp only [List.foldlM_cons, bind, Except.bind] at h
    cases hs : step acc a with
    | error p => rw [hs] at h; cases h
    | ok mid =>
      rw [hs] at h
      obtain ⟨r, hmid, hr⟩ := hstep acc a mid hs
      obtain ⟨recs, hout, hrecs⟩ := ih mid h
      refine ⟨r :: recs, ?_, ?_⟩
      · rw [hout, hmid]; simp
      · simp [hr, hrecs]

theorem countP_stringField (field : String) (k : String) (recs : List Value)
    (keys : List String) (hrecs : recs.map (Value.stringField field) = keys.map some) :
    recs.countP (fun r => decide (r.stringField field = some k)) = keys.count k := by
  induction recs generalizing keys with
  | nil =>
    cases keys with
    | nil => rfl
    | cons a as => simp at hrecs
  | cons r rs ih =>
    cases keys with
    | nil => simp at hrecs
    | cons a as =>
      simp only [List.map_cons, List.cons.injEq] at hrecs
      rw [List.countP_cons, List.count_cons, ih as hrecs.2, hrecs.1]
      simp

theorem countP_promoted (field : String) (n : Nat) (recs : List Value) (keys : List String)
    (hrecs : recs.map (Value.stringField field) = keys.map some)
    (hnodup : keys.Nodup) (k : String) (hk : k ∈ keys) :
    (List.replicate n Value.nil ++ recs).countP
      (fun r => decide (r.stringField field = some k)) = 1 := by
  rw [List.countP_append]
  have h0 : (List.replicate n Value.nil).countP
      (fun r => decide (r.stringField field = some k)) = 0 := by
    rw [List.countP_eq_zero]
    intro a ha
    rw [List.eq_of_mem_replicate ha]
    simp [Value.stringField]
  rw [h0, countP_stringField field k recs keys hrecs, List.count_eq_one_of_mem hnodup hk]

theorem replicate_append_eq_iff {α : Type} (a : α) (n : Nat) (l : List α) (h : 0 < n) :
    List.replicate (n - 1) a ++ l = l ↔ n = 1 := by
  constructor
  · intro heq
    have := congrArg List.length heq
    simp at this
    omega
  · intro h1
    subst h1
    rfl

theorem flattenDisksStep_present (acc : List Value) (e : String × Disk) :
    flattenDisksStep acc (e.1, some e.2) = .ok (acc ++ [diskRecord e]) := by
  rfl

theorem flattenMountsStep_present (acc : List Value) (e : String × Mount) :
    flattenMountsStep acc (e.1, some e.2) = .ok (acc ++ [mountRecord e]) := by
  rfl

theorem flattenDisksStep_key (acc : List Value) (e : String × Option Disk) (out : List Value)
    (h : flattenDisksStep acc e = .ok out) :
    ∃ r, out = acc ++ [r] ∧ r.stringField "device" = some e.1 := by
  obtain ⟨k, v⟩ := e
  cases v with
  | none => cases h
  | some d =>
    rw [flattenDisksStep_present acc (k, d)] at h
    cases h
    exact ⟨_, rfl, rfl⟩

theorem flattenMountsStep_key (acc : List Value) (e : String × Option Mount) (out : List Value)
    (h : flattenMountsStep acc e = .ok out) :
    ∃ r, out = acc ++ [r] ∧ r.stringField "mount_path" = some e.1 := by
  obtain ⟨k, v⟩ := e
  cases v with
  | none => cases h
  | some d =>
    rw [flattenMountsStep_present acc (k, d)] at h
    cases h
    exact ⟨_, rfl, rfl⟩

theorem projectStep_key (acc : List Value) (e : String × Option Instance) (out : List Value)
    (h : projectStep acc e = .ok out) :
    ∃ r, out = acc ++ [r] ∧ r.stringField "id" = some e.1 := by
  obtain ⟨k, v⟩ := e
  cases v with
  | none => cases h
  | some v =>
    simp only [projectStep, deref, bind, Except.bind, pure, Except.pure] at h
    cases hd : flattenDisks v.Disks with
    | error p => rw [hd] at h; cases h
    | ok ds =>
      rw [hd] at h
      cases hm : v.Memory with
      | none => rw [hm] at h; cases h
      | some mem =>
        rw [hm] at h
        cases hmo : flattenMounts v.Mounts with
        | error p => rw [hmo] at h; cases h
        | ok ms =>
          rw [hmo] at h
          cases h
          refine ⟨_, rfl, ?_⟩
          simp only [Value.stringField]
          rw [lookup_mapAssign_ne _ _ _ _ (by decide), lookup_mapAssign_ne _ _ _ _ (by decide),
            lookup_mapAssign_ne _ _ _ _ (by decide), lookup_mapAssign_ne _ _ _ _ (by decide),
            lookup_mapAssign_ne _ _ _ _ (by decide), lookup_mapAssign_ne _ _ _ _ (by decide),
            lookup_mapAssign_ne _ _ _ _ (by decide), lookup_mapAssign_ne _ _ _ _ (by decide)]
          rfl

theorem flattenDisks_present (ds : List (String × Disk)) (hd : ds ≠ []) :
    flattenDisks (presentMap ds) =
      .ok (List.replicate (ds.length - 1) Value.nil ++ ds.map diskRecord) := by
  have hlen : 0 < ds.length := List.length_pos.mpr hd
  simp only [flattenDisks, presentMap, List.length_map, makeSlice_pred _ hlen, bind, Except.bind]
  exact foldlM_ok_append flattenDisksStep _ diskRecord flattenDisksStep_present ds _

theorem flattenMounts_present (ms : List (String × Mount)) (hm : ms ≠ []) :
    flattenMounts (presentMap ms) =
      .ok (List.replicate (ms.length - 1) Value.nil ++ ms.map mountRecord) := by
  have hlen : 0 < ms.length := List.length_pos.mpr hm
  simp only [flattenMounts, presentMap, List.length_map, makeSlice_pred _ hlen, bind, Except.bind]
  exact foldlM_ok_append flattenMountsStep _ mountRecord flattenMountsStep_present ms _

/-- When a flattening loop started on `make(len - 1)` returns, every key is
    the promoted field of exactly one element of the result. -/
theorem loop_promotes_keys_once {α : Type}
    (step : List Value → String × α → Except Panic (List Value)) (field : String)
    (hstep : ∀ acc a out, step acc a = .ok out →
      ∃ r, out = acc ++ [r] ∧ r.stringField field = some a.1)
    (es : List (String × α)) (acc out : List Value)
    (hacc : makeSlice ((es.length : Int) - 1) = .ok acc)
    (h : es.foldlM step acc = .ok out) (hnodup : (es.map Prod.fst).Nodup)
    (k : String) (hk : k ∈ es.map Prod.fst) :
    out.countP (fun r => decide (r.stringField field = some k)) = 1 := by
  obtain ⟨recs, hout, hrecs⟩ := foldlM_ok_keys step Prod.fst field hstep es acc out h
  rw [hout, makeSlice_ok _ _ hacc]
  exact countP_promoted field _ recs (es.map Prod.fst) (by rw [hrecs]; simp) hnodup k hk

/-! ## Flattening: the shape of the result -/

/-- Claim C10: for a non-nil map with `N ≥ 1` entries whose values are all
    present, `flattenDisks` returns `N - 1` nil elements followed by the `N`
    records of the entries, `2N - 1` elements in all, and that is the list of
    the `N` records alone exactly when `N = 1`; `flattenMounts` has the same
    shape. -/
theorem flatten_shape (ds : List (String × Disk)) (ms : List (String × Mount))
    (hd : ds ≠ []) (hm : ms ≠ []) :
    (∃ out, flattenDisks (presentMap ds) = .ok out ∧
      out = List.replicate (ds.length - 1) Value.nil ++ ds.map diskRecord ∧
      out.length = 2 * ds.length - 1 ∧
      (out = ds.map diskRecord ↔ ds.length = 1)) ∧
    (∃ out, flattenMounts (presentMap ms) = .ok out ∧
      out = List.replicate (ms.length - 1) Value.nil ++ ms.map mountRecord ∧
      out.length = 2 * ms.length - 1 ∧
      (out = ms.map mountRecord ↔ ms.length = 1)) := by
  have hdl : 0 < ds.length := List.length_pos.mpr hd
  have hml : 0 < ms.length := List.length_pos.mpr hm
  refine ⟨⟨_, flattenDisks_present ds hd, rfl, ?_, ?_⟩,
    ⟨_, flattenMounts_present ms hm, rfl, ?_, ?_⟩⟩
  · simp; omega
  · exact replicate_append_eq_iff _ _ _ hdl
  · simp; omega
  · exact replicate_append_eq_iff _ _ _ hml

/-- Two disks give one nil element and two records; two mounts give three
    elements. -/
theorem flatten_shape_witness :
    (∃ out,
      flattenDisks (presentMap [("sda1", ⟨"10G", "1G"⟩), ("sdb1", ⟨"20G", "2G"⟩)]) = .ok out ∧
      out = [Value.nil, .map [("device", .str "sda1"), ("total", .str "10G")],
        .map [("device", .str "sdb1"), ("total", .str "20G")]]) ∧
    (∃ out, flattenMounts (presentMap [("/mnt/a", ⟨["1000:0"], "/home/a", ["1000:0"]⟩),
        ("/mnt/b", ⟨[], "/home/b", []⟩)]) = .ok out ∧ out.length = 3) := by
  obtain ⟨⟨o1, h1, e1, _, _⟩, ⟨o2, h2, _, l2, _⟩⟩ :=
    flatten_shape [("sda1", ⟨"10G", "1G"⟩), ("sdb1", ⟨"20G", "2G"⟩)]
      [("/mnt/a", ⟨["1000:0"], "/home/a", ["1000:0"]⟩), ("/mnt/b", ⟨[], "/home/b", []⟩)]
      (by simp) (by simp)
  exact ⟨⟨o1, h1, e1⟩, ⟨o2, h2, l2⟩⟩

/-- Claim C1, evaluated where it fails: on a map with two disks `flattenDisks`
    returns three elements, a nil element followed by the two records, and not
    the two records alone. -/
theorem flattenDisks_two_disks :
    flattenDisks (some [("sda1", some ⟨"10G", "1G"⟩), ("sdb1", some ⟨"20G", "2G"⟩)]) =
      .ok [Value.nil, .map [("device", .str "sda1"), ("total", .str "10G")],
        .map [("device", .str "sdb1"), ("total", .str "20G")]] := by
  rfl

/-- Claim C2, evaluated where it fails: on a map with two mounts `flattenMounts`
    returns three elements, a nil element followed by the two records. -/
theorem flattenMounts_two_mounts :
    flattenMounts (some [("/mnt/a", some ⟨["1000:0"], "/home/a", ["1000:1000"]⟩),
        ("/mnt/b", some ⟨[], "/home/b", []⟩)]) =
      .ok [Value.nil,
        .map [("mount_path", .str "/mnt/a"), ("gid_mappings", .strs ["1000:0"]),
          ("uid_mappings", .strs ["1000:1000"]), ("source_path", .str "/home/a")],
        .map [("mount_path", .str "/mnt/b"), ("gid_mappings", .strs []),
          ("uid_mappings", .strs []), ("source_path", .str "/home/b")]] := by
  rfl

/-- Claim C4, evaluated where it fails: the nil map flattens to the empty
    sequence, but on a non-nil map with no entries both `flattenDisks` and
    `flattenMounts` panic in `make` with a negative length. -/
theorem flatten_empty_map_panics :
    flattenDisks none = .ok [] ∧ flattenMounts none = .ok [] ∧
    flattenDisks (some []) = .error .makesliceLenOutOfRange ∧
    flattenMounts (some []) = .error .makesliceLenOutOfRange := by
  exact ⟨rfl, rfl, rfl, rfl⟩

/-! ## The projection loop -/

/-- Claim C3, evaluated where it fails: an inventory with two instances projects
    to three elements, the first of them nil; an inventory with no instance
    makes the projection panic. -/
theorem projectInstances_two_instances :
    (∃ r1 r2, projectInstances (some [("vm1", some (bareInstance (some ⟨1024, 512⟩))),
        ("vm2", some (bareInstance (some ⟨2048, 512⟩)))]) = .ok [Value.nil, r1, r2] ∧
      r1.stringField "id" = some "vm1" ∧ r2.stringField "id" = some "vm2") ∧
    projectInstances (some []) = .error .makesliceLenOutOfRange := by
  exact ⟨⟨_, _, rfl, rfl, rfl⟩, rfl⟩

/-- Claim C5, evaluated where it fails: projecting an instance whose `memory` is
    absent panics on the nil pointer, in the loop and so in the read function,
    which makes no call on the store. -/
theorem project_nil_memory_panics :
    projectInstances (some [("vm1", some (bareInstance none))]) =
      .error .nilPointerDereference ∧
    (dataSourceInstanceRead
        (decodedRun ⟨[], some [("vm1", some (bareInstance none))]⟩ none)).outcome =
      .error .nilPointerDereference ∧
    (dataSourceInstanceRead
        (decodedRun ⟨[], some [("vm1", some (bareInstance none))]⟩ none)).calls = [] := by
  exact ⟨rfl, rfl, rfl⟩

/-- Claim C6: whenever flattening returns, every key of the source map is the
    promoted field (`device`, `mount_path`, `id`) of exactly one element of the
    result, for `flattenDisks`, `flattenMounts` and the projection loop. -/
theorem flatten_promotes_keys_once (disks : GoMap Disk) (mounts : GoMap Mount)
    (info : GoMap Instance) (outD outM outI : List Value)
    (hkd : disks.keys.Nodup) (hkm : mounts.keys.Nodup) (hki : info.keys.Nodup)
    (hd : flattenDisks disks = .ok outD) (hm : flattenMounts mounts = .ok outM)
    (hi : projectInstances info = .ok outI) :
    (∀ k ∈ disks.keys, outD.countP (fun r => decide (r.stringField "device" = some k)) = 1) ∧
    (∀ k ∈ mounts.keys,
      outM.countP (fun r => decide (r.stringField "mount_path" = some k)) = 1) ∧
    (∀ k ∈ info.keys, outI.countP (fun r => decide (r.stringField "id" = some k)) = 1) := by
  refine ⟨?_, ?_, ?_⟩
  · intro k hk
    cases disks with
    | none => simp [GoMap.keys] at hk
    | some es =>
      simp only [flattenDisks, bind, Except.bind] at hd
      cases hmk : makeSlice ((es.length : Int) - 1) with
      | error p => rw [hmk] at hd; cases hd
      | ok acc =>
        rw [hmk] at hd
        exact loop_promotes_keys_once flattenDisksStep "device" flattenDisksStep_key es acc
          outD hmk hd hkd k hk
  · intro k hk
    cases mounts with
    | none => simp [GoMap.keys] at hk
    | some es =>
      simp only [flattenMounts, bind, Except.bind] at hm
      cases hmk : makeSlice ((es.length : Int) - 1) with
      | error p => rw [hmk] at hm; cases hm
      | ok acc =>
        rw [hmk] at hm
        exact loop_promotes_keys_once flattenMountsStep "mount_path" flattenMountsStep_key es
          acc outM hmk hm hkm k hk
  · intro k hk
    cases info with
    | none => simp [GoMap.keys] at hk
    | some es =>
      simp only [projectInstances, bind, Except.bind, GoMap.len] at hi
      cases hmk : makeSlice ((es.length : Int) - 1) with
      | error p => rw [hmk] at hi; cases hi
      | ok acc =>
        rw [hmk] at hi
        exact loop_promotes_keys_once projectStep "id" projectStep_key es acc outI hmk hi hki
          k hk

/-- Two disks, one mount and two instances: each key is promoted exactly once,
    the nil elements in front of the records notwithstanding. -/
theorem flatten_promotes_keys_once_witness :
    (∀ k ∈ ["sda1", "sdb1"],
      [Value.nil, diskRecord ("sda1", ⟨"10G", "1G"⟩), diskRecord ("sdb1", ⟨"20G", "2G"⟩)].countP
        (fun r => decide (r.stringField "device" = some k)) = 1) ∧
    (∀ k ∈ ["/mnt/a"],
      [mountRecord ("/mnt/a", ⟨["1000:0"], "/home/a", ["1000:1000"]⟩)].countP
        (fun r => decide (r.stringField "mount_path" = some k)) = 1) ∧
    (∃ r1 r2, ∀ k ∈ ["vm1", "vm2"],
      [Value.nil, r1, r2].countP (fun r => decide (r.stringField "id" = some k)) = 1) := by
  have h := flatten_promotes_keys_once
    (some [("sda1", some ⟨"10G", "1G"⟩), ("sdb1", some ⟨"20G", "2G"⟩)])
    (some [("/mnt/a", some ⟨["1000:0"], "/home/a", ["1000:1000"]⟩)])
    (some [("vm1", some (bareInstance (some ⟨1024, 512⟩))),
      ("vm2", some (bareInstance (some ⟨2048, 512⟩)))])
    _ _ _ (by decide) (by decide) (by decide) rfl rfl rfl
  exact ⟨h.1, h.2.1, _, _, h.2.2⟩

/-! ## The read function -/

/-- Claim C7: if the launch of the process fails (`StdoutPipe` or `Start`), or
    the decoding fails, or waiting for the process fails, the read function
    returns error diagnostics, without panicking, and makes no call on the state
    store: neither `Set` nor `SetId`. The projection, the only step that calls
    the store or can panic, is therefore reached only after decoding and waiting
    have both succeeded. -/
theorem read_failure_writes_nothing (c : Collaborators)
    (h : c.stdoutPipe ≠ none ∨ c.start ≠ none ∨ (∃ err, c.decode = .error err) ∨
      c.wait ≠ none) :
    (∃ ds, (dataSourceInstanceRead c).outcome = .ok ds ∧ ds.HasError = true) ∧
    (dataSourceInstanceRead c).calls = [] := by
  obtain ⟨pipe, start, decode, wait, set⟩ := c
  cases pipe with
  | some e => exact ⟨⟨_, rfl, rfl⟩, rfl⟩
  | none =>
    cases start with
    | some e => exact ⟨⟨_, rfl, rfl⟩, rfl⟩
    | none =>
      cases decode with
      | error e => exact ⟨⟨_, rfl, rfl⟩, rfl⟩
      | ok info =>
        cases wait with
        | some e => exact ⟨⟨_, rfl, rfl⟩, rfl⟩
        | none =>
          exfalso
          rcases h with h | h | ⟨err, h⟩ | h
          · exact h rfl
          · exact h rfl
          · cases h
          · exact h rfl

/-- A process that exits with status 1 after a valid inventory was decoded: the
    read returns the error of `Wait` and the store is not called. -/
theorem read_failure_writes_nothing_witness :
    (∃ ds, (dataSourceInstanceRead (decodedRun
        ⟨[], some [("vm1", some (bareInstance (some ⟨1024, 512⟩)))]⟩
        (some "exit status 1"))).outcome = .ok ds ∧ ds.HasError = true) ∧
    (dataSourceInstanceRead (decodedRun
        ⟨[], some [("vm1", some (bareInstance (some ⟨1024, 512⟩)))]⟩
        (some "exit status 1"))).calls = [] :=
  read_failure_writes_nothing
    (decodedRun ⟨[], some [("vm1", some (bareInstance (some ⟨1024, 512⟩)))]⟩
      (some "exit status 1"))
    (Or.inr (Or.inr (Or.inr (by simp [decodedRun]))))

/-- Claim C8, evaluated where it fails: for a decoded inventory with no
    instance and a store that accepts every value, the read function panics in
    `make` before calling the store, so no identifier is assigned; with one
    instance the identifier `"0"` is assigned after `Set`. -/
theorem read_empty_inventory_panics :
    (dataSourceInstanceRead (decodedRun ⟨[], some []⟩ none)).outcome =
      .error .makesliceLenOutOfRange ∧
    (dataSourceInstanceRead (decodedRun ⟨[], some []⟩ none)).calls = [] ∧
    (dataSourceInstanceRead (decodedRun ⟨[], none⟩ none)).outcome =
      .error .makesliceLenOutOfRange ∧
    (∃ v, (dataSourceInstanceRead (decodedRun
        ⟨[], some [("vm1", some (bareInstance (some ⟨1024, 512⟩)))]⟩ none)).calls =
      [.Set "instances" v, .SetId "0"]) := by
  exact ⟨rfl, rfl, rfl, _, rfl⟩

/-! ## Records and the declared schema -/

/-- Claim C9, evaluated where it fails: a mount record carries the field
    `source_path`, which the schema of `mounts` does not declare; the field
    names of instance and disk records are those the schema declares. -/
theorem mount_record_field_not_in_schema :
    (∃ r, flattenMounts (some [("/mnt/a", some ⟨["1000:0"], "/home/a", ["1000:1000"]⟩)]) =
        .ok [r] ∧
      Value.fieldNames r = ["mount_path", "gid_mappings", "uid_mappings", "source_path"]) ∧
    nestedFieldNames "mounts" = ["mount_path", "gid_mappings", "uid_mappings"] ∧
    "source_path" ∉ nestedFieldNames "mounts" ∧
    (∃ r, flattenDisks (some [("sda1", some ⟨"10G", "1G"⟩)]) = .ok [r] ∧
      Value.fieldNames r = nestedFieldNames "disks") ∧
    (∃ r, projectInstances (some [("vm1", some (bareInstance (some ⟨1024, 512⟩)))]) = .ok [r] ∧
      Value.fieldNames r = instanceFields.map Prod.fst) := by
  refine ⟨⟨_, rfl, rfl⟩, rfl, ?_, ⟨_, rfl, rfl⟩, ⟨_, rfl, rfl⟩⟩
  decide

end Multipass
